import Mathlib

/-
Verification of the "Active Resource Region Reconciler" (answer3.py) and the
unused-S3-bucket check of the resource optimizer (answer5.py).

The Python scripts are shallowly embedded: each adapter is a total Lean
function from an explicit model of the provider's observable behaviour (the
API responses it would deliver, or the exception it would raise) to the
value-level result the Python function returns.  Python `set` becomes
`Finset String`, dict lookups become association-list / option lookups,
`try/except` becomes pattern matching on an outcome type, and the f-string
status messages are rebuilt with string append.
-/

set_option maxRecDepth 4096

namespace ActiveRegions

/-- Region identifiers are opaque strings; adapters return a pair of a region
set and a human-readable status string, exactly like the Python
`Tuple[Set[str], str]`. -/
abbrev SourceResult := Finset String × String

/-! ### Cost Explorer adapter (answer3.py, `get_active_regions_from_cost_explorer`) -/

/-- One entry of a `ResultsByTime[_]['Groups']` list: the grouping keys
(`group['Keys']`, the region is `Keys[0]`) and the parsed
`float(group['Metrics']['UnblendedCost']['Amount'])`. -/
structure CEGroup where
  keys : List String
  amount : ℚ
  deriving DecidableEq

/-- One entry of `response['ResultsByTime']`: its `Groups` list. -/
structure CEResultByTime where
  groups : List CEGroup
  deriving DecidableEq

/-- Observable behaviour of the Cost Explorer call: either it returns a
response (`ok`), or it raises a structured `ClientError` carrying a code and a
message, or it raises some other exception whose `str` is `text`. -/
inductive CEOutcome where
  | ok (results : List CEResultByTime)
  | clientError (code message : String)
  | otherError (text : String)

/-- The set comprehension over `ResultsByTime`/`Groups`: groups with a cost
amount strictly greater than zero contribute `Keys[0]`.  Indexing `Keys[0]`
on an empty list raises `IndexError` (str: "list index out of range"), which
would be caught by the adapter's generic `except`; the comprehension is
therefore embedded as an `Except`. -/
def collectCostRegions : List CEGroup → Finset String → Except String (Finset String)
  | [], acc => .ok acc
  | g :: rest, acc =>
    if 0 < g.amount then
      match g.keys with
      | [] => .error "list index out of range"
      | k :: _ => collectCostRegions rest (insert k acc)
    else
      collectCostRegions rest acc

/-- Embedding of `get_active_regions_from_cost_explorer`: on a successful
response, the regions of the strictly-positive-amount groups and "Success";
on a `ClientError`, the empty set and a status embedding code and message;
on any other exception, the empty set and a status embedding the raw text. -/
def get_active_regions_from_cost_explorer : CEOutcome → SourceResult
  | .ok results =>
    match collectCostRegions (results.flatMap (·.groups)) ∅ with
    | .ok s => (s, "Success")
    | .error t => (∅, "Cost Explorer Error: " ++ t)
  | .clientError code message => (∅, "Cost Explorer Error: " ++ code ++ " - " ++ message)
  | .otherError t => (∅, "Cost Explorer Error: " ++ t)

/-! ### Reconciler (answer3.py, `main`) -/

/-- Everything `main` computes from the three adapter results (the pure core
of `main`, with printing stripped): the three status strings it echoes, the
union set, the sorted list it prints, and the four summary counts. -/
structure Report where
  costStatus : String
  resourceStatus : String
  configStatus : String
  aggregate : Finset String
  sortedRegions : List String
  total : Nat
  costCount : Nat
  resourceCount : Nat
  configCount : Nat
  deriving DecidableEq

/-- Embedding of the reconciliation in `main`:
`all_active_regions = cost_regions.union(resource_regions).union(config_regions)`,
printed sorted, with `len` counts for the summary block. -/
def mainReconcile (cost resource config : SourceResult) : Report :=
  let all_active_regions := cost.1 ∪ resource.1 ∪ config.1
  { costStatus := cost.2
    resourceStatus := resource.2
    configStatus := config.2
    aggregate := all_active_regions
    sortedRegions := all_active_regions.sort (· ≤ ·)
    total := all_active_regions.card
    costCount := cost.1.card
    resourceCount := resource.1.card
    configCount := config.1.card }

/-! ### Resource Explorer adapter (answer3.py, `get_active_regions_from_resource_explorer`) -/

/-- One entry of `list_indexes()['Indexes']`: the code reads its `Region`
field to pick the endpoint hosting the primary index. -/
structure REIndex where
  region : String
  deriving DecidableEq

/-- One resource record from a `search` page: a dict of attributes; the code
tests `'Region' in resource` and reads `resource['Region']`. -/
structure REResource where
  attrs : List (String × String)
  deriving DecidableEq

/-- One page produced by the `search` paginator: its `Resources` list. -/
structure REPage where
  resources : List REResource
  deriving DecidableEq

/-- Python dict lookup on an attribute record: the first binding of the key,
or `none` when the key is absent. -/
def attrGet : List (String × String) → String → Option String
  | [], _ => none
  | (k, v) :: rest, key => if k = key then some v else attrGet rest key

/-- Observable behaviour of the Resource Explorer calls: a successful run
delivers the index list and, for the chosen primary region, the search pages;
otherwise a `ClientError` or some other exception is raised at some point of
the `try` block. -/
inductive REOutcome where
  | ok (indexes : List REIndex) (searchPages : String → List REPage)
  | clientError (code message : String)
  | otherError (text : String)

/-- The nested collection loop: every resource of every page that has a
`Region` attribute contributes it to the set (`set.add`, so order and
duplicates are irrelevant). -/
def collectResourceRegions (pages : List REPage) : Finset String :=
  ((pages.flatMap (·.resources)).filterMap (fun r => attrGet r.attrs "Region")).toFinset

/-- Embedding of `get_active_regions_from_resource_explorer`: an empty
`Indexes` list yields the informational setup message; otherwise the pages
served by the first index's region are scanned for `Region` attributes;
exceptions become the empty set plus a status embedding the error. -/
def get_active_regions_from_resource_explorer : REOutcome → SourceResult
  | .ok indexes searchPages =>
    match indexes with
    | [] => (∅, "No Resource Explorer indexes found. Please set up Resource Explorer first.")
    | primary :: _ => (collectResourceRegions (searchPages primary.region), "Success")
  | .clientError code message => (∅, "Resource Explorer Error: " ++ code ++ " - " ++ message)
  | .otherError t => (∅, "Resource Explorer Error: " ++ t)

/-! ### AWS Config adapter (answer3.py, `get_active_regions_from_config`) -/

/-- Observable behaviour of one region's body of the inner loop
(`describe_configuration_recorders` and, when recorders exist,
`get_discovered_resource_counts`): either both calls succeed, delivering
whether the recorder list is nonempty and the discovered-resource count, or a
`ClientError` is raised (caught by the inner `except ClientError`), or some
other exception is raised (NOT caught by the inner handler, which only
catches `ClientError`, so it escapes to the enclosing `try`). -/
inductive RegionCheck where
  | ok (hasRecorders : Bool) (resourceCount : Nat)
  | clientError (code message : String)
  | otherError (text : String)
  deriving DecidableEq

/-- One region as enumerated by `describe_regions`, paired with what its
per-region Config calls would do. -/
structure CfgRegion where
  name : String
  check : RegionCheck
  deriving DecidableEq

/-- Observable behaviour of the whole Config adapter's inputs: either region
enumeration succeeds and each region behaves as recorded, or the
`describe_regions` call itself raises. -/
inductive CfgOutcome where
  | ok (regions : List CfgRegion)
  | enumClientError (code message : String)
  | enumOtherError (text : String)

/-- The per-region loop.  A successful check adds the region when recorders
exist and the count is positive.  A `ClientError` is skipped; when its code is
not `AccessDeniedException` a "Skipping region ..." line naming the region (in
Python also embedding `str(e)`) is printed first; an `AccessDeniedException`
is skipped with no output at all.
Any other exception escapes the loop (the inner handler catches only
`ClientError`), aborting the whole traversal. -/
def configLoop : List CfgRegion → Finset String → List String →
    Except (String × List String) (Finset String × List String)
  | [], acc, log => .ok (acc, log)
  | r :: rest, acc, log =>
    match r.check with
    | .ok hasRecorders resourceCount =>
      if hasRecorders && decide (0 < resourceCount) then
        configLoop rest (insert r.name acc) log
      else
        configLoop rest acc log
    | .clientError code _ =>
      if code = "AccessDeniedException" then
        configLoop rest acc log
      else
        configLoop rest acc (log ++ ["Skipping region " ++ r.name])
    | .otherError t => .error (t, log)

/-- Embedding of `get_active_regions_from_config`, returning the
`SourceResult` together with the list of "Skipping region" lines it printed.
A per-region non-`ClientError` exception reaches the outer generic
`except Exception` and produces the empty set plus a failure status; so do
errors of the region enumeration itself. -/
def get_active_regions_from_config : CfgOutcome → SourceResult × List String
  | .ok regions =>
    match configLoop regions ∅ [] with
    | .ok (acc, log) => ((acc, "Success"), log)
    | .error (t, log) => ((∅, "Config Error: " ++ t), log)
  | .enumClientError code message => ((∅, "Config Error: " ++ code ++ " - " ++ message), [])
  | .enumOtherError t => ((∅, "Config Error: " ++ t), [])

/-- The whole pipeline of `main` up to the report: run the three adapters on
their modelled inputs and reconcile the three results. -/
def runMain (ce : CEOutcome) (re : REOutcome) (cfg : CfgOutcome) : Report :=
  mainReconcile (get_active_regions_from_cost_explorer ce)
    (get_active_regions_from_resource_explorer re)
    (get_active_regions_from_config cfg).1

/-! ### Fixtures -/

/-- A Cost Explorer response with a zero-amount line item for `us-east-1` and
a `0.01` line item for `eu-west-1`. -/
def ceFixture : List CEResultByTime :=
  [⟨[⟨["us-east-1"], 0⟩, ⟨["eu-west-1"], 1 / 100⟩]⟩]

/-- The outcome classification of the per-region loop, forgetting the log
lines: the set built so far on success, the escaping exception text on
abort. -/
def loopOutcome (e : Except (String × List String) (Finset String × List String)) :
    Except String (Finset String) :=
  match e with
  | .ok (s, _) => .ok s
  | .error (t, _) => .error t

/-- How `get_active_regions_from_config` renders the loop outcome into a
`SourceResult`. -/
def renderLoop : Except String (Finset String) → SourceResult
  | .ok s => (s, "Success")
  | .error t => (∅, "Config Error: " ++ t)

/-- `true` exactly on the per-region outcomes that escape the inner
`except ClientError` handler. -/
def RegionCheck.isOtherError : RegionCheck → Bool
  | .otherError _ => true
  | _ => false

/-- Prepend already-printed log lines to a per-region loop result. -/
def shiftLog (l0 : List String) :
    Except (String × List String) (Finset String × List String) →
    Except (String × List String) (Finset String × List String)
  | .ok (s, l) => .ok (s, l0 ++ l)
  | .error (t, l) => .error (t, l0 ++ l)

end ActiveRegions

namespace ResourceOptimizer

/-! ### Unused-S3-bucket check (answer5.py, `AWSResourceOptimizer.get_unused_s3_buckets`) -/

/-- One bucket record of the S3 `ListBuckets` response, with its `Name` and
`CreationDate` fields. -/
structure S3Bucket where
  name : String
  creationDate : String
  deriving DecidableEq

/-- The S3 `ListBuckets` response: the bucket records live under the dict key
`"Buckets"` (alongside `Owner` and `ResponseMetadata`, which hold non-list
metadata and are irrelevant here). -/
structure S3ListBucketsResponse where
  buckets : List S3Bucket

/-- Dict access `list_buckets()[key]` for a key expected to yield the bucket
list: only the key `"Buckets"` is bound to that list; any other key is absent
from the response dict, so the subscript raises `KeyError`. -/
def listBucketsField (resp : S3ListBucketsResponse) (key : String) : Option (List S3Bucket) :=
  if key = "Buckets" then some resp.buckets else none

/-- Observable behaviour of one bucket's body of the loop (`list_objects_v2`
with `MaxKeys=1` and, when contents exist, the CloudWatch metric query):
either both calls succeed, delivering whether `'Contents'` is present and
whether any datapoint came back, or some exception is raised (caught by the
inner generic handler, which logs and continues). -/
inductive BucketCheck where
  | ok (hasContents : Bool) (hasDatapoints : Bool)
  | err (text : String)

/-- The world `get_unused_s3_buckets` runs against: the `ListBuckets`
response and, per bucket name, what that bucket's checks would do. -/
structure S3World where
  listBucketsResponse : S3ListBucketsResponse
  perBucket : String → BucketCheck

/-- An entry appended to `unused_buckets`: bucket name, creation date, and
the reason string. -/
structure UnusedBucket where
  bucketName : String
  creationDate : String
  reason : String
  deriving DecidableEq

/-- The per-bucket loop: an empty bucket is reported as "Empty bucket"; a
bucket with contents but no recent datapoints as "No recent access"; a
per-bucket exception is logged and skipped. -/
def bucketLoop (w : S3World) : List S3Bucket → List UnusedBucket → List String → List UnusedBucket × List String
  | [], acc, log => (acc, log)
  | b :: rest, acc, log =>
    match w.perBucket b.name with
    | .ok hasContents hasDatapoints =>
      if !hasContents then
        bucketLoop w rest (acc ++ [⟨b.name, b.creationDate, "Empty bucket"⟩]) log
      else if !hasDatapoints then
        bucketLoop w rest (acc ++ [⟨b.name, b.creationDate, "No recent access"⟩]) log
      else
        bucketLoop w rest acc log
    | .err t => bucketLoop w rest acc (log ++ ["Error checking bucket " ++ b.name ++ ": " ++ t])

/-- Embedding of `get_unused_s3_buckets`, returning the result list together
with the printed error lines.  The source reads
`buckets = self.s3.list_buckets()['XXXXXXX']`: the lookup of the placeholder
key raises `KeyError('XXXXXXX')` (whose `str` is the quoted key), which the
top-level generic handler turns into a log line and an empty list; only if the
lookup produced a list would the per-bucket loop run. -/
def get_unused_s3_buckets (w : S3World) : List UnusedBucket × List String :=
  match listBucketsField w.listBucketsResponse "XXXXXXX" with
  | some buckets => bucketLoop w buckets [] []
  | none => ([], ["Error checking S3 buckets: \x27XXXXXXX\x27"])

end ResourceOptimizer

namespace ActiveRegions

/-- A sorted list whose underlying multiset is a `Finset`'s is that
`Finset`'s sort. -/
theorem sort_eq_of_val (s : Finset String) (L : List String)
    (hval : s.val = ↑L) (hs : L.Sorted (fun a b : String => a ≤ b)) :
    s.sort (· ≤ ·) = L :=
  List.eq_of_perm_of_sorted (Multiset.coe_eq_coe.mp ((Finset.sort_eq _ _).trans hval))
    (Finset.sort_sorted _ _) hs

/-- The fixture output list of claim C6 is sorted. -/
theorem fixture_list_sorted :
    (["ap-south-1", "eu-west-1", "us-east-1"] : List String).Sorted (· ≤ ·) := by
  have h1 : ("ap-south-1" : String) ≤ "eu-west-1" := String.le_iff_toList_le.mpr (by decide)
  have h2 : ("ap-south-1" : String) ≤ "us-east-1" := String.le_iff_toList_le.mpr (by decide)
  have h3 : ("eu-west-1" : String) ≤ "us-east-1" := String.le_iff_toList_le.mpr (by decide)
  simp only [List.sorted_cons, List.mem_cons, List.not_mem_nil, or_false, List.mem_singleton]
  refine ⟨fun b hb => ?_, ⟨fun b hb => ?_, ⟨fun b hb => hb.elim, List.sorted_nil⟩⟩⟩
  · rcases hb with h | h <;> subst h <;> assumption
  · subst hb; assumption

/-- Claim C1: the reconciler's aggregate region set equals the union of the
three per-source region sets — membership in the aggregate is exactly
membership in at least one source, and the presented list is
duplicate-free. -/
theorem aggregate_eq_union_of_sources (a b c : SourceResult) :
    (mainReconcile a b c).aggregate = a.1 ∪ b.1 ∪ c.1
    ∧ (∀ r, r ∈ (mainReconcile a b c).aggregate ↔ r ∈ a.1 ∨ r ∈ b.1 ∨ r ∈ c.1)
    ∧ (mainReconcile a b c).sortedRegions.Nodup := by
  refine ⟨rfl, ?_, Finset.sort_nodup _ _⟩
  intro r
  simp [mainReconcile, Finset.mem_union, or_assoc]

/-- Claim C2: every adapter is a total function into a value-level
`(set, status)` pair (no exception escapes its boundary), and on any
provider-side error it returns the empty set with a Failure status embedding
the structured error code and message, or the raw exception text
otherwise — including a per-region non-`ClientError` escaping to the Config
adapter's top-level handler. -/
theorem adapters_return_failure_value_on_error (code message t name : String) :
    get_active_regions_from_cost_explorer (.clientError code message)
        = (∅, "Cost Explorer Error: " ++ code ++ " - " ++ message)
    ∧ get_active_regions_from_cost_explorer (.otherError t)
        = (∅, "Cost Explorer Error: " ++ t)
    ∧ get_active_regions_from_resource_explorer (.clientError code message)
        = (∅, "Resource Explorer Error: " ++ code ++ " - " ++ message)
    ∧ get_active_regions_from_resource_explorer (.otherError t)
        = (∅, "Resource Explorer Error: " ++ t)
    ∧ (get_active_regions_from_config (.enumClientError code message)).1
        = (∅, "Config Error: " ++ code ++ " - " ++ message)
    ∧ (get_active_regions_from_config (.enumOtherError t)).1
        = (∅, "Config Error: " ++ t)
    ∧ (get_active_regions_from_config (.ok [⟨name, .otherError t⟩])).1
        = (∅, "Config Error: " ++ t) :=
  ⟨rfl, rfl, rfl, rfl, rfl, rfl, rfl⟩

/-- Membership in the set built by `collectCostRegions`: when every group has
a nonempty `Keys` list the traversal succeeds, and the result extends the
accumulator with the first key of every strictly-positive-amount group. -/
theorem collectCostRegions_mem (gs : List CEGroup) (acc : Finset String)
    (h : ∀ g ∈ gs, g.keys ≠ []) :
    ∃ s, collectCostRegions gs acc = .ok s ∧
      ∀ r, r ∈ s ↔ r ∈ acc ∨ ∃ g ∈ gs, g.keys.head? = some r ∧ 0 < g.amount := by
  induction gs generalizing acc with
  | nil =>
    refine ⟨acc, rfl, fun r => ?_⟩
    simp
  | cons g rest ih =>
    have hg : g.keys ≠ [] := h g (List.mem_cons_self g rest)
    obtain ⟨k, ks, hk⟩ := List.exists_cons_of_ne_nil hg
    have hrest : ∀ g' ∈ rest, g'.keys ≠ [] := fun g' hg' => h g' (List.mem_cons_of_mem _ hg')
    by_cases hamt : 0 < g.amount
    · obtain ⟨s, hs, hmem⟩ := ih (insert k acc) hrest
      refine ⟨s, ?_, fun r => ?_⟩
      · simp only [collectCostRegions, if_pos hamt, hk]
        exact hs
      · rw [hmem r]
        constructor
        · rintro (hins | ⟨g', hg', hh, hp⟩)
          · rcases Finset.mem_insert.mp hins with rfl | hracc
            · exact Or.inr ⟨g, List.mem_cons_self _ _, by rw [hk]; rfl, hamt⟩
            · exact Or.inl hracc
          · exact Or.inr ⟨g', List.mem_cons_of_mem _ hg', hh, hp⟩
        · rintro (hracc | ⟨g', hg', hh, hp⟩)
          · exact Or.inl (Finset.mem_insert_of_mem hracc)
          · rcases List.mem_cons.mp hg' with rfl | hg'rest
            · rw [hk] at hh
              obtain rfl : k = r := by simpa using hh
              exact Or.inl (Finset.mem_insert_self _ _)
            · exact Or.inr ⟨g', hg'rest, hh, hp⟩
    · obtain ⟨s, hs, hmem⟩ := ih acc hrest
      refine ⟨s, ?_, fun r => ?_⟩
      · simp only [collectCostRegions, if_neg hamt]
        exact hs
      · rw [hmem r]
        constructor
        · rintro (hracc | ⟨g', hg', hh, hp⟩)
          · exact Or.inl hracc
          · exact Or.inr ⟨g', List.mem_cons_of_mem _ hg', hh, hp⟩
        · rintro (hracc | ⟨g', hg', hh, hp⟩)
          · exact Or.inl hracc
          · rcases List.mem_cons.mp hg' with rfl | hg'rest
            · exact absurd hp hamt
            · exact Or.inr ⟨g', hg'rest, hh, hp⟩

/-- Claim C3: the billing adapter's output set contains exactly the regions
having a line item with strictly positive amount — a region whose line items
all have amount 0 is excluded, any positive amount (e.g. 0.01) is
included. -/
theorem cost_explorer_mem_iff_positive_amount (results : List CEResultByTime)
    (h : ∀ g ∈ results.flatMap (·.groups), g.keys ≠ []) (r : String) :
    r ∈ (get_active_regions_from_cost_explorer (.ok results)).1
      ↔ ∃ g ∈ results.flatMap (·.groups), g.keys.head? = some r ∧ 0 < g.amount := by
  obtain ⟨s, hs, hmem⟩ := collectCostRegions_mem (results.flatMap (·.groups)) ∅ h
  simp only [get_active_regions_from_cost_explorer, hs]
  rw [hmem r]
  simp

/-- Witness for claim C3, on the fixture holding a zero-amount line item for
`us-east-1` and a `0.01` line item for `eu-west-1`. -/
theorem cost_explorer_mem_iff_positive_amount_witness :
    "eu-west-1" ∈ (get_active_regions_from_cost_explorer (.ok ceFixture)).1
      ↔ ∃ g ∈ ceFixture.flatMap (·.groups), g.keys.head? = some "eu-west-1" ∧ 0 < g.amount :=
  cost_explorer_mem_iff_positive_amount ceFixture (by decide) "eu-west-1"

/-- Claim C10: the Resource Explorer adapter collects a region exactly from
the resource records carrying a `Region` attribute; records lacking it are
dropped and leave the `Success` status unchanged. -/
theorem resource_explorer_mem_iff_region_attr (primary : REIndex) (rest : List REIndex)
    (f : String → List REPage) :
    (get_active_regions_from_resource_explorer (.ok (primary :: rest) f)).2 = "Success"
    ∧ ∀ r, r ∈ (get_active_regions_from_resource_explorer (.ok (primary :: rest) f)).1
        ↔ ∃ p ∈ f primary.region, ∃ res ∈ p.resources, attrGet res.attrs "Region" = some r := by
  refine ⟨rfl, fun r => ?_⟩
  simp only [get_active_regions_from_resource_explorer, collectResourceRegions,
    List.mem_toFinset, List.mem_filterMap, List.mem_flatMap]
  constructor
  · rintro ⟨res, ⟨p, hp, hres⟩, hget⟩
    exact ⟨p, hp, res, hres, hget⟩
  · rintro ⟨p, hp, res, hres, hget⟩
    exact ⟨res, ⟨p, hp, hres⟩, hget⟩

/-- Claim C5: when the index listing returns no indexes, the Resource
Explorer adapter returns the empty set with the informational setup message,
which is not of the `Resource Explorer Error: ...` failure shape used for
caught exceptions. -/
theorem resource_explorer_no_indexes_informational (f : String → List REPage) :
    get_active_regions_from_resource_explorer (.ok [] f)
      = (∅, "No Resource Explorer indexes found. Please set up Resource Explorer first.")
    ∧ ∀ s, "No Resource Explorer indexes found. Please set up Resource Explorer first."
        ≠ "Resource Explorer Error: " ++ s := by
  refine ⟨rfl, ?_⟩
  intro s h
  obtain ⟨sd⟩ := s
  have hd : ("No Resource Explorer indexes found. Please set up Resource Explorer first." : String).data
      = ("Resource Explorer Error: " : String).data ++ sd := congrArg String.data h
  have hp : ("Resource Explorer Error: " : String).data
      <+: ("No Resource Explorer indexes found. Please set up Resource Explorer first." : String).data :=
    ⟨sd, hd.symm⟩
  exact absurd hp (by decide)

/-- The set/abort outcome of the per-region loop does not depend on the log
accumulated so far. -/
theorem configLoop_loopOutcome_log (rs : List CfgRegion) (acc : Finset String)
    (log log' : List String) :
    loopOutcome (configLoop rs acc log) = loopOutcome (configLoop rs acc log') := by
  induction rs generalizing acc log log' with
  | nil => rfl
  | cons r rest ih =>
    cases hc : r.check with
    | ok a b =>
      by_cases hcond : (a && decide (0 < b)) = true
      · simp only [configLoop, hc]
        rw [if_pos hcond, if_pos hcond]
        exact ih _ _ _
      · simp only [configLoop, hc]
        rw [if_neg hcond, if_neg hcond]
        exact ih _ _ _
    | clientError c m =>
      by_cases hc2 : c = "AccessDeniedException"
      · simp only [configLoop, hc]
        rw [if_pos hc2, if_pos hc2]
        exact ih _ _ _
      · simp only [configLoop, hc]
        rw [if_neg hc2, if_neg hc2]
        exact ih _ _ _
    | otherError u => simp [configLoop, hc, loopOutcome]

/-- Removing a region whose check raises a `ClientError` does not change the
set/abort outcome of the per-region loop. -/
theorem configLoop_skip_middle (pre post : List CfgRegion) (name code message : String)
    (acc : Finset String) (log : List String) :
    loopOutcome (configLoop (pre ++ ⟨name, .clientError code message⟩ :: post) acc log)
      = loopOutcome (configLoop (pre ++ post) acc log) := by
  induction pre generalizing acc log with
  | nil =>
    by_cases hcode : code = "AccessDeniedException"
    · simp [configLoop, hcode]
    · simp only [List.nil_append, configLoop, hcode, if_neg, ite_false]
      exact configLoop_loopOutcome_log post acc _ log
  | cons r pre' ih =>
    cases hc : r.check with
    | ok a b =>
      by_cases hcond : (a && decide (0 < b)) = true <;> simp [configLoop, hc, hcond, ih]
    | clientError c m =>
      by_cases hc2 : c = "AccessDeniedException" <;> simp [configLoop, hc, hc2, ih]
    | otherError u => simp [configLoop, hc]

/-- The adapter's `SourceResult` on a successful enumeration is a rendering
of the loop outcome. -/
theorem get_config_renderLoop (rs : List CfgRegion) :
    (get_active_regions_from_config (.ok rs)).1 = renderLoop (loopOutcome (configLoop rs ∅ [])) := by
  simp only [get_active_regions_from_config]
  cases hcl : configLoop rs ∅ [] with
  | ok p => obtain ⟨s, l⟩ := p; simp [loopOutcome, renderLoop]
  | error p => obtain ⟨u, l⟩ := p; simp [loopOutcome, renderLoop]

/-- When no region's check raises a non-`ClientError`, the per-region loop
runs to completion. -/
theorem configLoop_ok_of_no_otherError (rs : List CfgRegion)
    (h : ∀ r ∈ rs, RegionCheck.isOtherError r.check = false) (acc : Finset String)
    (log : List String) :
    ∃ s log', configLoop rs acc log = .ok (s, log') := by
  induction rs generalizing acc log with
  | nil => exact ⟨acc, log, rfl⟩
  | cons r rest ih =>
    have hr := h r (List.mem_cons_self _ _)
    have hrest : ∀ r' ∈ rest, RegionCheck.isOtherError r'.check = false :=
      fun r' hr' => h r' (List.mem_cons_of_mem _ hr')
    cases hc : r.check with
    | ok a b =>
      by_cases hcond : (a && decide (0 < b)) = true
      · obtain ⟨s, l, hs⟩ := ih hrest (insert r.name acc) log
        exact ⟨s, l, by simp [configLoop, hc, hcond, hs]⟩
      · obtain ⟨s, l, hs⟩ := ih hrest acc log
        exact ⟨s, l, by simp [configLoop, hc, hcond, hs]⟩
    | clientError c m =>
      by_cases hc2 : c = "AccessDeniedException"
      · obtain ⟨s, l, hs⟩ := ih hrest acc log
        exact ⟨s, l, by simp [configLoop, hc, hc2, hs]⟩
      · obtain ⟨s, l, hs⟩ := ih hrest acc (log ++ ["Skipping region " ++ r.name])
        exact ⟨s, l, by simp [configLoop, hc, hc2, hs]⟩
    | otherError u =>
      rw [hc] at hr
      simp [RegionCheck.isOtherError] at hr

/-- The first non-`ClientError` region check aborts the whole loop with that
exception's text. -/
theorem configLoop_abort (pre : List CfgRegion) (name u : String) (post : List CfgRegion)
    (h : ∀ r ∈ pre, RegionCheck.isOtherError r.check = false) (acc : Finset String)
    (log : List String) :
    ∃ log', configLoop (pre ++ ⟨name, .otherError u⟩ :: post) acc log = .error (u, log') := by
  induction pre generalizing acc log with
  | nil => exact ⟨log, by simp [configLoop]⟩
  | cons r pre' ih =>
    have hr := h r (List.mem_cons_self _ _)
    have hpre' : ∀ r' ∈ pre', RegionCheck.isOtherError r'.check = false :=
      fun r' hr' => h r' (List.mem_cons_of_mem _ hr')
    cases hc : r.check with
    | ok a b =>
      by_cases hcond : (a && decide (0 < b)) = true
      · obtain ⟨l, hl⟩ := ih hpre' (insert r.name acc) log
        exact ⟨l, by simp [configLoop, hc, hcond, hl]⟩
      · obtain ⟨l, hl⟩ := ih hpre' acc log
        exact ⟨l, by simp [configLoop, hc, hcond, hl]⟩
    | clientError c m =>
      by_cases hc2 : c = "AccessDeniedException"
      · obtain ⟨l, hl⟩ := ih hpre' acc log
        exact ⟨l, by simp [configLoop, hc, hc2, hl]⟩
      · obtain ⟨l, hl⟩ := ih hpre' acc (log ++ ["Skipping region " ++ r.name])
        exact ⟨l, by simp [configLoop, hc, hc2, hl]⟩
    | otherError v =>
      rw [hc] at hr
      simp [RegionCheck.isOtherError] at hr

/-- Shifting a prefix of log lines commutes with shifting another. -/
theorem shiftLog_shiftLog (l0 l1 : List String)
    (e : Except (String × List String) (Finset String × List String)) :
    shiftLog l0 (shiftLog l1 e) = shiftLog (l0 ++ l1) e := by
  cases e with
  | ok p => obtain ⟨s, l⟩ := p; simp [shiftLog]
  | error p => obtain ⟨u, l⟩ := p; simp [shiftLog]

/-- The per-region loop threads its log by appending: running with an initial
log is running with an empty one and prepending. -/
theorem configLoop_shiftLog (rs : List CfgRegion) (acc : Finset String) (l0 : List String) :
    configLoop rs acc l0 = shiftLog l0 (configLoop rs acc []) := by
  induction rs generalizing acc l0 with
  | nil => simp [configLoop, shiftLog]
  | cons r rest ih =>
    cases hc : r.check with
    | ok a b =>
      by_cases hcond : (a && decide (0 < b)) = true
      · simp only [configLoop, hc, hcond, if_true]
        exact ih _ _
      · simp only [configLoop, hc, hcond, if_false]
        exact ih _ _
    | clientError c m =>
      by_cases hc2 : c = "AccessDeniedException"
      · simp only [configLoop, hc, hc2, if_true]
        exact ih _ _
      · simp only [configLoop, hc, hc2, if_neg, ite_false, List.nil_append]
        rw [ih _ (l0 ++ ["Skipping region " ++ r.name]),
          ih _ ["Skipping region " ++ r.name], shiftLog_shiftLog]
    | otherError u => simp [configLoop, hc, shiftLog]

/-- Counterexample to claim C4: with three regions where the middle one's
check raises a non-`ClientError` exception (`boom`), the Config adapter does
not return a `Success` result derived from the other two regions — the error
escapes the per-region handler (which only catches `ClientError`) and aborts
the whole adapter; moreover a permission-denied region produces no log line
at all. -/
theorem config_c4_counterexample :
    (get_active_regions_from_config (.ok
        [⟨"eu-west-1", .ok true 5⟩, ⟨"us-east-1", .otherError "boom"⟩,
         ⟨"ap-south-1", .ok true 5⟩])).1 = (∅, "Config Error: boom")
    ∧ (get_active_regions_from_config (.ok
        [⟨"eu-west-1", .ok true 5⟩, ⟨"us-east-1", .otherError "boom"⟩,
         ⟨"ap-south-1", .ok true 5⟩])).1
        ≠ ({"eu-west-1", "ap-south-1"}, "Success")
    ∧ (get_active_regions_from_config (.ok
        [⟨"eu-west-1", .clientError "AccessDeniedException" "denied"⟩])).2 = [] := by
  refine ⟨by decide, by decide, rfl⟩

/-- Claim C4 as amended: per-region `ClientError`s are skipped and iteration
continues — permission denials silently, other `ClientError`s after printing
a skip line — so a region raising a `ClientError` among N regions leaves the
result derived from the other N-1; but a per-region error that is not a
`ClientError` escapes the per-region handler and aborts the whole adapter,
which then returns the empty set and a Failure status embedding the error
text. -/
theorem config_client_error_skipped (pre post : List CfgRegion) (name code message u : String) :
    (get_active_regions_from_config (.ok (pre ++ ⟨name, .clientError code message⟩ :: post))).1
      = (get_active_regions_from_config (.ok (pre ++ post))).1
    ∧ ((∀ r ∈ pre ++ post, RegionCheck.isOtherError r.check = false) →
        (get_active_regions_from_config (.ok (pre ++ post))).1.2 = "Success")
    ∧ ((∀ r ∈ pre, RegionCheck.isOtherError r.check = false) →
        (get_active_regions_from_config (.ok (pre ++ ⟨name, .otherError u⟩ :: post))).1
          = (∅, "Config Error: " ++ u))
    ∧ get_active_regions_from_config
          (.ok (⟨name, .clientError "AccessDeniedException" message⟩ :: post))
        = get_active_regions_from_config (.ok post)
    ∧ (code ≠ "AccessDeniedException" →
        (get_active_regions_from_config (.ok (⟨name, .clientError code message⟩ :: post))).2
          = ("Skipping region " ++ name) :: (get_active_regions_from_config (.ok post)).2) := by
  refine ⟨?_, ?_, ?_, rfl, ?_⟩
  · rw [get_config_renderLoop, get_config_renderLoop, configLoop_skip_middle]
  · intro h
    obtain ⟨s, l, hs⟩ := configLoop_ok_of_no_otherError (pre ++ post) h ∅ []
    simp [get_active_regions_from_config, hs]
  · intro h
    obtain ⟨l', hl⟩ := configLoop_abort pre name u post h ∅ []
    simp [get_active_regions_from_config, hl]
  · intro hcode
    have h1 : configLoop (⟨name, .clientError code message⟩ :: post) ∅ []
        = configLoop post ∅ ["Skipping region " ++ name] := by
      simp [configLoop, hcode]
    simp only [get_active_regions_from_config, h1,
      configLoop_shiftLog post ∅ ["Skipping region " ++ name]]
    cases hcl : configLoop post ∅ [] with
    | ok p => obtain ⟨s, l⟩ := p; simp [shiftLog]
    | error p => obtain ⟨v, l⟩ := p; simp [shiftLog]

/-- Witness for the amended claim C4, on three concrete regions whose middle
one raises a throttling `ClientError`. -/
theorem config_client_error_skipped_witness :
    ((get_active_regions_from_config (.ok ([⟨"eu-west-1", .ok true 5⟩]
          ++ ⟨"us-east-1", .clientError "Throttling" "slow"⟩ :: [⟨"ap-south-1", .ok true 3⟩]))).1
        = (get_active_regions_from_config
            (.ok ([⟨"eu-west-1", .ok true 5⟩] ++ [⟨"ap-south-1", .ok true 3⟩]))).1)
    ∧ (get_active_regions_from_config
          (.ok ([⟨"eu-west-1", .ok true 5⟩] ++ [⟨"ap-south-1", .ok true 3⟩]))).1.2 = "Success"
    ∧ (get_active_regions_from_config (.ok ([⟨"eu-west-1", .ok true 5⟩]
          ++ ⟨"us-east-1", .otherError "boom"⟩ :: [⟨"ap-south-1", .ok true 3⟩]))).1
        = (∅, "Config Error: boom")
    ∧ (get_active_regions_from_config (.ok ([⟨"us-east-1",
          .clientError "Throttling" "slow"⟩] ++ [⟨"ap-south-1", .ok true 3⟩]))).2
        = ("Skipping region " ++ "us-east-1")
            :: (get_active_regions_from_config (.ok [⟨"ap-south-1", .ok true 3⟩])).2 := by
  refine ⟨(config_client_error_skipped [⟨"eu-west-1", .ok true 5⟩] [⟨"ap-south-1", .ok true 3⟩]
      "us-east-1" "Throttling" "slow" "boom").1, ?_, ?_, ?_⟩
  · exact (config_client_error_skipped [⟨"eu-west-1", .ok true 5⟩] [⟨"ap-south-1", .ok true 3⟩]
      "us-east-1" "Throttling" "slow" "boom").2.1 (by decide)
  · exact (config_client_error_skipped [⟨"eu-west-1", .ok true 5⟩] [⟨"ap-south-1", .ok true 3⟩]
      "us-east-1" "Throttling" "slow" "boom").2.2.1 (by decide)
  · exact (config_client_error_skipped [⟨"us-east-1", .clientError "Throttling" "slow"⟩]
      [⟨"ap-south-1", .ok true 3⟩] "us-east-1" "Throttling" "slow" "boom").2.2.2.2 (by decide)

/-- Claim C8: the reconciliation is a deterministic function of the three
source results — any two runs whose adapters deliver the same value-level
results produce identical reports (sorted list and counts included). -/
theorem reconcile_deterministic_in_source_results
    (ce ce' : CEOutcome) (re re' : REOutcome) (cfg cfg' : CfgOutcome)
    (h1 : get_active_regions_from_cost_explorer ce = get_active_regions_from_cost_explorer ce')
    (h2 : get_active_regions_from_resource_explorer re
      = get_active_regions_from_resource_explorer re')
    (h3 : (get_active_regions_from_config cfg).1 = (get_active_regions_from_config cfg').1) :
    runMain ce re cfg = runMain ce' re' cfg' := by
  simp only [runMain, h1, h2, h3]

/-- Witness for claim C8: two worlds differing only in an extra
permission-denied Config region yield identical reports. -/
theorem reconcile_deterministic_in_source_results_witness :
    runMain (.ok ceFixture) (.clientError "AccessDenied" "denied")
        (.ok [⟨"us-east-1", .clientError "AccessDeniedException" "denied"⟩])
      = runMain (.ok ceFixture) (.clientError "AccessDenied" "denied") (.ok []) :=
  reconcile_deterministic_in_source_results _ _ _ _ _ _ rfl rfl rfl

/-- Claim C6: the reconciler presents the final region list in lexicographic
sort order, and on the fixture (billing `{us-east-1, eu-west-1}`, index
`{us-east-1, ap-south-1}`, config `{}`) it yields the sorted list
`[ap-south-1, eu-west-1, us-east-1]` with counts total 3, cost 2,
resource-index 2, config 0. -/
theorem reconcile_sorted_and_fixture_scenario :
    (∀ a b c : SourceResult, (mainReconcile a b c).sortedRegions.Sorted (· ≤ ·))
    ∧ mainReconcile ({"us-east-1", "eu-west-1"}, "Success")
        ({"us-east-1", "ap-south-1"}, "Success") (∅, "Success")
      = { costStatus := "Success", resourceStatus := "Success", configStatus := "Success",
          aggregate := {"ap-south-1", "eu-west-1", "us-east-1"},
          sortedRegions := ["ap-south-1", "eu-west-1", "us-east-1"],
          total := 3, costCount := 2, resourceCount := 2, configCount := 0 } := by
  refine ⟨fun a b c => Finset.sort_sorted _ _, ?_⟩
  simp only [mainReconcile]
  rw [Report.mk.injEq]
  refine ⟨rfl, rfl, rfl, by decide, ?_, by decide, by decide, by decide, by decide⟩
  exact sort_eq_of_val _ _ (by decide) fixture_list_sorted

/-- Claim C7: the reconciler is a total function that cannot itself fail: a
failed adapter (empty set, failure status) leaves the other two sets intact
in the aggregate, every source set is included in the aggregate, and when all
three adapters fail the report carries the three statuses verbatim, an empty
aggregate, an empty sorted list and all-zero counts. -/
theorem reconcile_total_fault_isolation (st f1 f2 f3 : String) (a b c : SourceResult) :
    (mainReconcile (∅, st) b c).aggregate = b.1 ∪ c.1
    ∧ (mainReconcile a (∅, st) c).aggregate = a.1 ∪ c.1
    ∧ (mainReconcile a b (∅, st)).aggregate = a.1 ∪ b.1
    ∧ a.1 ⊆ (mainReconcile a b c).aggregate
    ∧ b.1 ⊆ (mainReconcile a b c).aggregate
    ∧ c.1 ⊆ (mainReconcile a b c).aggregate
    ∧ mainReconcile (∅, f1) (∅, f2) (∅, f3)
      = { costStatus := f1, resourceStatus := f2, configStatus := f3,
          aggregate := ∅, sortedRegions := [], total := 0,
          costCount := 0, resourceCount := 0, configCount := 0 } := by
  refine ⟨?_, ?_, ?_, ?_, ?_, ?_, ?_⟩
  · simp [mainReconcile]
  · simp [mainReconcile]
  · simp [mainReconcile]
  · intro x hx
    simp [mainReconcile, Finset.mem_union]
    tauto
  · intro x hx
    simp [mainReconcile, Finset.mem_union]
    tauto
  · intro x hx
    simp [mainReconcile, Finset.mem_union]
    tauto
  · simp [mainReconcile, Report.mk.injEq]

end ActiveRegions

namespace ResourceOptimizer

/-- Claim C9: `get_unused_s3_buckets` reads the placeholder field
`'XXXXXXX'` of the `ListBuckets` response, so for every input the lookup
raises, the top-level handler catches it, and the function returns an empty
list (logging the `KeyError` text) without examining any bucket. -/
theorem get_unused_s3_buckets_always_empty (w : S3World) :
    get_unused_s3_buckets w = ([], ["Error checking S3 buckets: \x27XXXXXXX\x27"]) := rfl

end ResourceOptimizer
